import Mathlib

/-!
Shallow embedding of `cargo-hf2` (src/cargo-hf2/src/main.rs): the argument
filter, the build-message artifact resolver, the device selector, the exit
policy of `main`, `exit_with_process_status` and `parse_hex_16`, with proofs
of the specified properties.
-/

namespace CargoHf2

/-- A compiler artifact as far as `main` inspects it: only the optional
`executable` path field is read. -/
structure Artifact where
  executable : Option String
deriving DecidableEq

/-- The build-message stream entries (`cargo_metadata::Message`), restricted
to the variants and fields `main` distinguishes. -/
inductive Message where
  | compilerArtifact (artifact : Artifact)
  | compilerMessage (rendered : Option String)
  | other
deriving DecidableEq

/-- The fatal conditions of the run, one per panic or expect site in `main`:
the multiple-artifacts panic, the unwrap of a missing target artifact, and
the failed-open expect of device selection. -/
inductive Err where
  | ambiguousArtifact
  | noArtifact
  | deviceNotFound
deriving DecidableEq

/-- Whether the resolver loop treats this message as a target candidate:
a compiler-artifact event whose `executable` field is present. -/
def qualifies : Message → Bool
  | .compilerArtifact a => a.executable.isSome
  | _ => false

/-- The message loop of `main` (lines 50–71), as a fold over the parsed
message list with the `target_artifact` cell made an explicit accumulator.
The multiple-artifacts panic on a second executable artifact becomes
`Except.error .ambiguousArtifact`. -/
def resolveLoop : List Message → Option Artifact → Except Err (Option Artifact)
  | [], acc => .ok acc
  | .compilerArtifact a :: rest, acc =>
    if a.executable.isSome then
      match acc with
      | some _ => .error .ambiguousArtifact
      | none => resolveLoop rest (some a)
    else resolveLoop rest acc
  | .compilerMessage _ :: rest, acc => resolveLoop rest acc
  | .other :: rest, acc => resolveLoop rest acc

/-- Number of compiler-artifact events with an executable in a message list. -/
def countExec (msgs : List Message) : Nat := msgs.countP (fun m => qualifies m)

/-- `std::process::ExitStatus` as visible to `main` on POSIX: `success()`,
`code()` and the unix `signal()`. -/
structure ExitStatus where
  success : Bool
  code : Option Nat
  signal : Option Nat
deriving DecidableEq

/-- `exit_with_process_status` (unix version, lines 139–144): exit with
`status.code()`, else the terminating signal, else 1. -/
def exit_with_process_status (status : ExitStatus) : Nat :=
  ((status.code).or status.signal).getD 1

/-- One entry of `api.device_list()`: the identifiers `main` reads, plus
whether `device_info.open_device(&api)` would succeed on it. -/
structure DeviceInfo where
  vendor_id : Nat
  product_id : Nat
  opens : Bool
deriving DecidableEq

/-- The HID environment `main` runs against: the enumerated device list, and
whether an explicit `api.open(v, p)` succeeds. -/
structure HidEnv where
  devices : List DeviceInfo
  openExplicit : Nat → Nat → Bool

/-- The vendor-to-products table produced by `vendor_map()`, abstracted as an
association list: a map lookup is `List.lookup`, product-set membership is
`List.contains`. -/
abbrev VendorMap := List (Nat × List Nat)

/-- The guard of the scan loop body: the device's vendor id is a key of the
vendor map and its product id is a member of the mapped product set. -/
def deviceMatches (vendor : VendorMap) (d : DeviceInfo) : Bool :=
  match vendor.lookup d.vendor_id with
  | some products => products.contains d.product_id
  | none => false

/-- The (vendorId, productId) identity of an enumerated device. -/
def pairOf (d : DeviceInfo) : Nat × Nat := (d.vendor_id, d.product_id)

/-- Trace of one scan: the enumeration entries consumed, the devices on which
an open was attempted, and the selected device if any. -/
structure ScanResult where
  visited : List DeviceInfo
  attempts : List (Nat × Nat)
  found : Option DeviceInfo
deriving DecidableEq

/-- The scan loop of `main` (lines 88–101): walk the enumeration in order;
on a vendor-map match attempt to open; the first successful open breaks the
loop. -/
def scanList (vendor : VendorMap) : List DeviceInfo → ScanResult
  | [] => ⟨[], [], none⟩
  | d :: rest =>
    if deviceMatches vendor d then
      if d.opens then ⟨[d], [pairOf d], some d⟩
      else
        let r := scanList vendor rest
        ⟨d :: r.visited, pairOf d :: r.attempts, r.found⟩
    else
      let r := scanList vendor rest
      ⟨d :: r.visited, r.attempts, r.found⟩

/-- Device selection (lines 79–103).  Explicit mode exactly when both a
vendor id and a product id were given on the command line; otherwise scan
mode over the vendor map.  The first component lists every open attempt as a
(vendorId, productId) pair; a failed selection is the expect panic
`Err.deviceNotFound`. -/
def selectDevice (vid pid : Option Nat) (env : HidEnv) (vendor : VendorMap) :
    List (Nat × Nat) × Except Err (Nat × Nat) :=
  match vid, pid with
  | some v, some p =>
    ([(v, p)], if env.openExplicit v p then .ok (v, p) else .error .deviceNotFound)
  | _, _ =>
    let s := scanList vendor env.devices
    (s.attempts,
      match s.found with
      | some d => .ok (pairOf d)
      | none => .error .deviceNotFound)

/-- Observable side effects of `main` that the specification constrains:
any use of the HID api (from `HidApi::new` onwards) counts as device
interaction. -/
inductive Action where
  | deviceInteraction
deriving DecidableEq

/-- How the modelled run ends: a mirrored process exit, a panic, or the
hand-off of the resolved executable path to the external flashing step. -/
inductive Outcome where
  | exited (code : Nat)
  | panicked (e : Err)
  | reachedFlash (path : String)
deriving DecidableEq

/-- `main` from the parsed message stream onwards (lines 48–120): resolver
loop, exit-status check, device selection, unwrap of the target artifact and
of its executable path, up to the call into the external flashing
capabilities.  The action list records whether HID device interaction
happened before the run ended. -/
def runMain (vid pid : Option Nat) (msgs : List Message) (status : ExitStatus)
    (env : HidEnv) (vendor : VendorMap) : List Action × Outcome :=
  match resolveLoop msgs none with
  | .error e => ([], .panicked e)
  | .ok target =>
    if status.success then
      match (selectDevice vid pid env vendor).2 with
      | .error e => ([.deviceInteraction], .panicked e)
      | .ok _ =>
        match target with
        | none => ([.deviceInteraction], .panicked .noArtifact)
        | some a =>
          match a.executable with
          | none => ([.deviceInteraction], .panicked .noArtifact)
          | some path => ([.deviceInteraction], .reachedFlash path)
    else ([], .exited (exit_with_process_status status))

/-- The iterator search of the filter loop: index of the first occurrence of
`flag` in the argument list. -/
def position (flag : String) : List String → Option Nat
  | [] => none
  | x :: xs => if x = flag then some 0 else (position flag xs).map (· + 1)

/-- `Vec::remove(index)`: `none` models the panic on an out-of-bounds index. -/
def remove? (args : List String) (index : Nat) : Option (List String) :=
  if index < args.length then some (args.eraseIdx index) else none

/-- One iteration of the flag-stripping loop (lines 24–27): find the first
occurrence of `flag`, then remove at that index twice. -/
def stripFlag (flag : String) (args : List String) : Option (List String) :=
  match position flag args with
  | none => some args
  | some index => (remove? args index).bind (fun l => remove? l index)

/-- The whole loop over the flag array (lines 22–28), first stripping `--pid`
and then `--vid`; `none` models the out-of-bounds panic of the second
remove. -/
def filterArgs (args : List String) : Option (List String) :=
  (stripFlag "--pid" args).bind (stripFlag "--vid")

/-- Digit decoding as in `char::to_digit(radix)`. -/
def toDigit? (radix : Nat) (c : Char) : Option Nat :=
  let v? :=
    if '0' ≤ c ∧ c ≤ '9' then some (c.toNat - '0'.toNat)
    else if 'a' ≤ c ∧ c ≤ 'z' then some (c.toNat - 'a'.toNat + 10)
    else if 'A' ≤ c ∧ c ≤ 'Z' then some (c.toNat - 'A'.toNat + 10)
    else none
  match v? with
  | some v => if v < radix then some v else none
  | none => none

/-- The digit loop of `u16::from_str_radix`: checked multiply and add against
the 16-bit bound at every step, no wrap-around. -/
def parseDigitsU16 (radix : Nat) (acc : Nat) : List Char → Option Nat
  | [] => some acc
  | c :: cs =>
    match toDigit? radix c with
    | none => none
    | some d =>
      let v := acc * radix + d
      if v < 65536 then parseDigitsU16 radix v cs else none

/-- `u16::from_str_radix(src, radix)`: empty input fails, a single leading
plus sign is allowed but not alone, every remaining character must be a
digit of the radix, and the value must fit in 16 bits. -/
def fromStrRadixU16 (radix : Nat) : List Char → Option Nat
  | [] => none
  | '+' :: rest => if rest.isEmpty then none else parseDigitsU16 radix 0 rest
  | cs => parseDigitsU16 radix 0 cs

/-- `parse_hex_16` (lines 152–158): strip a leading `0x` and parse the rest
as hexadecimal, else parse the whole input as decimal; parse errors become
`none`. -/
def parse_hex_16 (input : String) : Option Nat :=
  match input.toList with
  | '0' :: 'x' :: stripped => fromStrRadixU16 16 stripped
  | cs => fromStrRadixU16 10 cs

/-! ## Helper lemmas about the resolver loop -/

theorem countExec_cons_true (m : Message) (rest : List Message)
    (h : qualifies m = true) : countExec (m :: rest) = countExec rest + 1 := by
  simp [countExec, List.countP_cons, h]

theorem countExec_cons_false (m : Message) (rest : List Message)
    (h : qualifies m = false) : countExec (m :: rest) = countExec rest := by
  simp [countExec, List.countP_cons, h]

theorem resolveLoop_cons_not_qual (m : Message) (rest : List Message)
    (acc : Option Artifact) (h : qualifies m = false) :
    resolveLoop (m :: rest) acc = resolveLoop rest acc := by
  cases m with
  | compilerArtifact a =>
    simp only [qualifies] at h
    simp [resolveLoop, h]
  | compilerMessage r => rfl
  | other => rfl

theorem resolveLoop_cons_qual_none (a : Artifact) (rest : List Message)
    (h : a.executable.isSome = true) :
    resolveLoop (Message.compilerArtifact a :: rest) none = resolveLoop rest (some a) := by
  simp [resolveLoop, h]

theorem resolveLoop_cons_qual_some (a b : Artifact) (rest : List Message)
    (h : b.executable.isSome = true) :
    resolveLoop (Message.compilerArtifact b :: rest) (some a) = .error .ambiguousArtifact := by
  simp [resolveLoop, h]

theorem resolveLoop_of_zero (msgs : List Message) (acc : Option Artifact)
    (h : countExec msgs = 0) : resolveLoop msgs acc = .ok acc := by
  induction msgs with
  | nil => rfl
  | cons m rest ih =>
    cases hq : qualifies m with
    | true => rw [countExec_cons_true m rest hq] at h; omega
    | false =>
      rw [resolveLoop_cons_not_qual m rest acc hq]
      exact ih (by rw [countExec_cons_false m rest hq] at h; exact h)

theorem resolveLoop_append_zero (xs rest : List Message) (acc : Option Artifact)
    (h : countExec xs = 0) :
    resolveLoop (xs ++ rest) acc = resolveLoop rest acc := by
  induction xs with
  | nil => rfl
  | cons m xs ih =>
    cases hq : qualifies m with
    | true => rw [countExec_cons_true m xs hq] at h; omega
    | false =>
      rw [List.cons_append, resolveLoop_cons_not_qual m (xs ++ rest) acc hq]
      exact ih (by rw [countExec_cons_false m xs hq] at h; exact h)

theorem resolveLoop_some_of_one_le (msgs : List Message) (a : Artifact)
    (h : 1 ≤ countExec msgs) :
    resolveLoop msgs (some a) = .error .ambiguousArtifact := by
  induction msgs with
  | nil => simp [countExec] at h
  | cons m rest ih =>
    cases hq : qualifies m with
    | false =>
      rw [resolveLoop_cons_not_qual m rest (some a) hq]
      exact ih (by rw [countExec_cons_false m rest hq] at h; exact h)
    | true =>
      cases m with
      | compilerArtifact b => exact resolveLoop_cons_qual_some a b rest hq
      | compilerMessage r => simp [qualifies] at hq
      | other => simp [qualifies] at hq

theorem resolveLoop_none_of_two_le (msgs : List Message) (h : 2 ≤ countExec msgs) :
    resolveLoop msgs none = .error .ambiguousArtifact := by
  induction msgs with
  | nil => simp [countExec] at h
  | cons m rest ih =>
    cases hq : qualifies m with
    | false =>
      rw [resolveLoop_cons_not_qual m rest none hq]
      exact ih (by rw [countExec_cons_false m rest hq] at h; exact h)
    | true =>
      cases m with
      | compilerArtifact b =>
        rw [resolveLoop_cons_qual_none b rest hq]
        exact resolveLoop_some_of_one_le rest b
          (by rw [countExec_cons_true _ rest hq] at h; omega)
      | compilerMessage r => simp [qualifies] at hq
      | other => simp [qualifies] at hq

/-! ## Helper lemmas about the argument filter -/

theorem position_eq_none (flag : String) (xs : List String) (h : flag ∉ xs) :
    position flag xs = none := by
  induction xs with
  | nil => rfl
  | cons x xs ih =>
    have hx : ¬(x = flag) := fun he => h (he ▸ List.mem_cons_self x xs)
    have hxs : flag ∉ xs := fun hm => h (List.mem_cons_of_mem x hm)
    simp [position, hx, ih hxs]

theorem position_append (flag : String) (xs rest : List String) (h : flag ∉ xs) :
    position flag (xs ++ flag :: rest) = some xs.length := by
  induction xs with
  | nil => simp [position]
  | cons x xs ih =>
    have hx : ¬(x = flag) := fun he => h (he ▸ List.mem_cons_self x xs)
    have hxs : flag ∉ xs := fun hm => h (List.mem_cons_of_mem x hm)
    simp [position, hx, ih hxs]

theorem eraseIdx_append_length (xs : List String) (y : String) (ys : List String) :
    (xs ++ y :: ys).eraseIdx xs.length = xs ++ ys := by
  induction xs with
  | nil => rfl
  | cons x xs ih => simpa using ih

theorem stripFlag_present (flag : String) (xs : List String) (v : String)
    (ys : List String) (h : flag ∉ xs) :
    stripFlag flag (xs ++ flag :: v :: ys) = some (xs ++ ys) := by
  unfold stripFlag
  rw [position_append flag xs (v :: ys) h]
  have h1 : xs.length < (xs ++ flag :: v :: ys).length := by
    simp
  have e1 : (xs ++ flag :: v :: ys).eraseIdx xs.length = xs ++ v :: ys :=
    eraseIdx_append_length xs flag (v :: ys)
  have h2 : xs.length < (xs ++ v :: ys).length := by
    simp
  have e2 : (xs ++ v :: ys).eraseIdx xs.length = xs ++ ys :=
    eraseIdx_append_length xs v ys
  simp [remove?, h1, h2, e1, e2]

theorem stripFlag_absent (flag : String) (xs : List String) (h : flag ∉ xs) :
    stripFlag flag xs = some xs := by
  simp [stripFlag, position_eq_none flag xs h]

theorem stripFlag_trailing (flag : String) (xs : List String) (h : flag ∉ xs) :
    stripFlag flag (xs ++ [flag]) = none := by
  unfold stripFlag
  rw [position_append flag xs [] h]
  have h1 : xs.length < (xs ++ [flag]).length := by simp
  have e1 : (xs ++ [flag]).eraseIdx xs.length = xs := by
    simpa using eraseIdx_append_length xs flag []
  have h2 : ¬(xs.length < xs.length) := by omega
  simp [remove?, h1, h2, e1]

/-! ## Helper lemma about the scan loop -/

theorem scanList_spec (vendor : VendorMap) (devices : List DeviceInfo) :
    (∀ d, (scanList vendor devices).found = some d →
      deviceMatches vendor d = true ∧ d.opens = true ∧
      ∃ pre post, devices = pre ++ d :: post
        ∧ (∀ e ∈ pre, deviceMatches vendor e = false ∨ e.opens = false)
        ∧ (scanList vendor devices).visited = pre ++ [d]
        ∧ (scanList vendor devices).attempts
            = (pre.filter (fun e => deviceMatches vendor e)).map pairOf ++ [pairOf d])
    ∧ ((scanList vendor devices).found = none →
        (∀ e ∈ devices, deviceMatches vendor e = false ∨ e.opens = false)
        ∧ (scanList vendor devices).visited = devices
        ∧ (scanList vendor devices).attempts
            = (devices.filter (fun e => deviceMatches vendor e)).map pairOf) := by
  induction devices with
  | nil =>
    constructor
    · intro d hd; simp [scanList] at hd
    · intro _; refine ⟨by simp, rfl, by simp [scanList]⟩
  | cons x rest ih =>
    cases hm : deviceMatches vendor x with
    | true =>
      cases ho : x.opens with
      | true =>
        have hscan : scanList vendor (x :: rest) = ⟨[x], [pairOf x], some x⟩ := by
          simp [scanList, hm, ho]
        constructor
        · intro d hd
          rw [hscan] at hd
          cases hd
          exact ⟨hm, ho, [], rest, rfl, by simp, by simp [hscan], by simp [hscan]⟩
        · intro hn; rw [hscan] at hn; cases hn
      | false =>
        have hscan : scanList vendor (x :: rest)
            = ⟨x :: (scanList vendor rest).visited,
               pairOf x :: (scanList vendor rest).attempts,
               (scanList vendor rest).found⟩ := by
          simp [scanList, hm, ho]
        constructor
        · intro d hd
          rw [hscan] at hd
          obtain ⟨hdm, hdo, pre, post, hdev, hpre, hvis, hatt⟩ := ih.1 d hd
          refine ⟨hdm, hdo, x :: pre, post, by rw [hdev]; rfl, ?_, ?_, ?_⟩
          · intro e he
            rcases List.mem_cons.mp he with he | he
            · exact Or.inr (he ▸ ho)
            · exact hpre e he
          · rw [hscan, hvis]; rfl
          · rw [hscan, hatt]; simp [hm]
        · intro hn
          rw [hscan] at hn
          obtain ⟨hall, hvis, hatt⟩ := ih.2 hn
          refine ⟨?_, ?_, ?_⟩
          · intro e he
            rcases List.mem_cons.mp he with he | he
            · exact Or.inr (he ▸ ho)
            · exact hall e he
          · rw [hscan, hvis]
          · rw [hscan, hatt]; simp [hm]
    | false =>
      have hscan : scanList vendor (x :: rest)
          = ⟨x :: (scanList vendor rest).visited,
             (scanList vendor rest).attempts,
             (scanList vendor rest).found⟩ := by
        simp [scanList, hm]
      constructor
      · intro d hd
        rw [hscan] at hd
        obtain ⟨hdm, hdo, pre, post, hdev, hpre, hvis, hatt⟩ := ih.1 d hd
        refine ⟨hdm, hdo, x :: pre, post, by rw [hdev]; rfl, ?_, ?_, ?_⟩
        · intro e he
          rcases List.mem_cons.mp he with he | he
          · exact Or.inl (he ▸ hm)
          · exact hpre e he
        · rw [hscan, hvis]; rfl
        · rw [hscan, hatt]; simp [hm]
      · intro hn
        rw [hscan] at hn
        obtain ⟨hall, hvis, hatt⟩ := ih.2 hn
        refine ⟨?_, ?_, ?_⟩
        · intro e he
          rcases List.mem_cons.mp he with he | he
          · exact Or.inl (he ▸ hm)
          · exact hall e he
        · rw [hscan, hvis]
        · rw [hscan, hatt]; simp [hm]

/-! ## The claims -/

/-- C1: a build-event sequence with two or more executable compiler artifacts
makes artifact resolution fail immediately and fatally with the
ambiguous-artifact error, no matter how many non-artifact events are
interleaved; the first qualifying artifact is recorded into the accumulator,
and a second qualifying event fails at once. -/
theorem C1_ambiguous_artifact :
    (∀ msgs : List Message, 2 ≤ countExec msgs →
        resolveLoop msgs none = .error .ambiguousArtifact)
    ∧ (∀ (xs : List Message) (a : Artifact) (rest : List Message),
        countExec xs = 0 → a.executable.isSome = true →
        resolveLoop (xs ++ Message.compilerArtifact a :: rest) none
          = resolveLoop rest (some a))
    ∧ (∀ (b : Artifact) (rest : List Message) (a : Artifact),
        b.executable.isSome = true →
        resolveLoop (Message.compilerArtifact b :: rest) (some a)
          = .error .ambiguousArtifact) :=
  ⟨fun msgs h => resolveLoop_none_of_two_le msgs h,
   fun xs a rest hx ha => by
     rw [resolveLoop_append_zero xs _ none hx, resolveLoop_cons_qual_none a rest ha],
   fun b rest a hb => resolveLoop_cons_qual_some a b rest hb⟩

theorem C1_ambiguous_artifact_witness :
    2 ≤ countExec [Message.compilerArtifact ⟨some "a"⟩, Message.other,
        Message.compilerMessage (some "warn"), Message.compilerArtifact ⟨some "b"⟩]
    ∧ resolveLoop [Message.compilerArtifact ⟨some "a"⟩, Message.other,
        Message.compilerMessage (some "warn"), Message.compilerArtifact ⟨some "b"⟩] none
      = .error .ambiguousArtifact :=
  ⟨by decide, C1_ambiguous_artifact.1 _ (by decide)⟩

/-- C2 (counterexample): with zero executable artifacts and a success exit
status, the missing-artifact unwrap panics only AFTER device selection: on
this input the run records device interaction before failing with the
no-artifact error, refuting the claimed "before any device interaction". -/
theorem C2_no_artifact_counterexample :
    (runMain (some 1) (some 2) [] ⟨true, some 0, none⟩
        ⟨[], fun _ _ => true⟩ []).1 = [Action.deviceInteraction]
    ∧ (runMain (some 1) (some 2) [] ⟨true, some 0, none⟩
        ⟨[], fun _ _ => true⟩ []).2 = .panicked .noArtifact :=
  ⟨rfl, rfl⟩

/-- C2 (amended): with zero executable artifacts and a success exit status,
the run fails fatally with the no-artifact error, but only after device
selection: whenever the device selector returns a device, the unwrap of the
missing target artifact panics, with HID device interaction already in the
trace. -/
theorem C2_no_artifact_after_device (vid pid : Option Nat) (msgs : List Message)
    (status : ExitStatus) (env : HidEnv) (vendor : VendorMap) (d : Nat × Nat)
    (h0 : countExec msgs = 0) (hs : status.success = true)
    (hd : (selectDevice vid pid env vendor).2 = .ok d) :
    runMain vid pid msgs status env vendor
      = ([.deviceInteraction], .panicked .noArtifact) := by
  simp [runMain, resolveLoop_of_zero msgs none h0, hs, hd]

theorem C2_no_artifact_after_device_witness :
    countExec [Message.other] = 0
    ∧ runMain (some 9114) (some 13) [Message.other] ⟨true, some 0, none⟩
        ⟨[], fun _ _ => true⟩ []
      = ([.deviceInteraction], .panicked .noArtifact) :=
  ⟨by decide, C2_no_artifact_after_device (some 9114) (some 13) [Message.other]
    ⟨true, some 0, none⟩ ⟨[], fun _ _ => true⟩ [] (9114, 13) (by decide) rfl rfl⟩

/-- C3: a build-event sequence with exactly one executable compiler artifact
resolves to that artifact, whatever the surrounding diagnostic or other
events; with a success exit status (and a selected device) the run hands
exactly that event's executable path, unchanged, to the flashing step. -/
theorem C3_single_artifact (xs ys : List Message) (path : String)
    (vid pid : Option Nat) (status : ExitStatus) (env : HidEnv) (vendor : VendorMap)
    (hx : countExec xs = 0) (hy : countExec ys = 0) :
    resolveLoop (xs ++ Message.compilerArtifact ⟨some path⟩ :: ys) none
      = .ok (some ⟨some path⟩)
    ∧ (status.success = true →
        ∀ d : Nat × Nat, (selectDevice vid pid env vendor).2 = .ok d →
          runMain vid pid (xs ++ Message.compilerArtifact ⟨some path⟩ :: ys)
              status env vendor
            = ([.deviceInteraction], .reachedFlash path)) := by
  have h1 : resolveLoop (xs ++ Message.compilerArtifact ⟨some path⟩ :: ys) none
      = .ok (some ⟨some path⟩) := by
    rw [resolveLoop_append_zero xs _ none hx,
      resolveLoop_cons_qual_none ⟨some path⟩ ys rfl,
      resolveLoop_of_zero ys (some ⟨some path⟩) hy]
  refine ⟨h1, fun hs d hd => ?_⟩
  simp [runMain, h1, hs, hd]

theorem C3_single_artifact_witness :
    resolveLoop ([Message.other] ++ Message.compilerArtifact ⟨some "t"⟩ :: []) none
      = .ok (some ⟨some "t"⟩)
    ∧ runMain (some 5) (some 6)
        ([Message.other] ++ Message.compilerArtifact ⟨some "t"⟩ :: [])
        ⟨true, some 0, none⟩ ⟨[], fun _ _ => true⟩ []
      = ([.deviceInteraction], .reachedFlash "t") := by
  have h := C3_single_artifact [Message.other] [] "t" (some 5) (some 6)
    ⟨true, some 0, none⟩ ⟨[], fun _ _ => true⟩ [] (by decide) (by decide)
  exact ⟨h.1, h.2 rfl (5, 6) rfl⟩

/-- C4 (counterexample): the filter does not remove every occurrence of a
tool-only flag: with two occurrences of the vid flag, only the first pair is
stripped and the second occurrence survives. -/
theorem C4_filter_counterexample :
    filterArgs ["--vid", "1", "--vid", "2"] = some ["--vid", "2"]
    ∧ "--vid" ∈ ["--vid", "2"] :=
  ⟨by decide, by decide⟩

/-- C4 (amended): the filter removes, for each tool-only flag, only the FIRST
occurrence of the flag together with its one following value token, and
leaves all other arguments (later occurrences included) in their relative
order; an absent flag leaves the list unchanged; the two flags are stripped
in sequence, so the full filter behaves as the composition.  The listed
example still holds. -/
theorem C4_filter_first_occurrence :
    filterArgs ["--release", "--vid", "0x1234", "--bin", "foo"]
      = some ["--release", "--bin", "foo"]
    ∧ (∀ (xs : List String) (v : String) (ys : List String), "--pid" ∉ xs →
        stripFlag "--pid" (xs ++ "--pid" :: v :: ys) = some (xs ++ ys))
    ∧ (∀ (xs : List String) (v : String) (ys : List String), "--vid" ∉ xs →
        stripFlag "--vid" (xs ++ "--vid" :: v :: ys) = some (xs ++ ys))
    ∧ (∀ xs : List String, "--pid" ∉ xs → stripFlag "--pid" xs = some xs)
    ∧ (∀ xs : List String, "--vid" ∉ xs → stripFlag "--vid" xs = some xs)
    ∧ (∀ args l : List String, stripFlag "--pid" args = some l →
        filterArgs args = stripFlag "--vid" l) :=
  ⟨by decide,
   fun xs v ys h => stripFlag_present _ xs v ys h,
   fun xs v ys h => stripFlag_present _ xs v ys h,
   fun xs h => stripFlag_absent _ xs h,
   fun xs h => stripFlag_absent _ xs h,
   fun args l h => by simp [filterArgs, h]⟩

theorem C4_filter_first_occurrence_witness :
    filterArgs ["--release", "--vid", "0x1234", "--bin", "foo"]
      = some ["--release", "--bin", "foo"]
    ∧ stripFlag "--pid" (["-q"] ++ "--pid" :: "7" :: ["x"]) = some (["-q"] ++ ["x"]) :=
  ⟨C4_filter_first_occurrence.1, C4_filter_first_occurrence.2.1 ["-q"] "7" ["x"] (by decide)⟩

/-- C5: when the subprocess exit status indicates failure and the event
stream was exhausted (the resolver loop returned), the run exits with the
subprocess's exit code if present, else its terminating signal number, else
1, with no device interaction in the trace — even when a target artifact was
found. -/
theorem C5_failure_exit_mirrors (vid pid : Option Nat) (msgs : List Message)
    (status : ExitStatus) (env : HidEnv) (vendor : VendorMap)
    (target : Option Artifact)
    (hr : resolveLoop msgs none = .ok target) (hs : status.success = false) :
    runMain vid pid msgs status env vendor
      = ([], .exited (((status.code).or status.signal).getD 1)) := by
  simp [runMain, hr, hs, exit_with_process_status]

theorem C5_failure_exit_mirrors_witness :
    runMain none none [Message.compilerArtifact ⟨some "t"⟩] ⟨false, none, some 9⟩
        ⟨[], fun _ _ => true⟩ []
      = ([], .exited 9) :=
  C5_failure_exit_mirrors none none [Message.compilerArtifact ⟨some "t"⟩]
    ⟨false, none, some 9⟩ ⟨[], fun _ _ => true⟩ [] (some ⟨some "t"⟩) rfl rfl

/-- C6: in scan mode the selector walks the enumeration in order, attempts to
open exactly the devices whose vendor id is a key of the vendor map with the
product id in the mapped set, selects the first that opens successfully and
enumerates nothing after it; if none opens after the full enumeration it
fails fatally with the device-not-found error. -/
theorem C6_scan_mode (env : HidEnv) (vendor : VendorMap) :
    (∀ d, (scanList vendor env.devices).found = some d →
      deviceMatches vendor d = true ∧ d.opens = true
      ∧ (∃ pre post, env.devices = pre ++ d :: post
          ∧ (∀ e ∈ pre, deviceMatches vendor e = false ∨ e.opens = false)
          ∧ (scanList vendor env.devices).visited = pre ++ [d]
          ∧ (scanList vendor env.devices).attempts
              = (pre.filter (fun e => deviceMatches vendor e)).map pairOf ++ [pairOf d])
      ∧ (selectDevice none none env vendor).2 = .ok (pairOf d))
    ∧ ((scanList vendor env.devices).found = none →
        (∀ e ∈ env.devices, deviceMatches vendor e = false ∨ e.opens = false)
        ∧ (scanList vendor env.devices).visited = env.devices
        ∧ (scanList vendor env.devices).attempts
            = (env.devices.filter (fun e => deviceMatches vendor e)).map pairOf
        ∧ (selectDevice none none env vendor).2 = .error .deviceNotFound) := by
  refine ⟨fun d hd => ?_, fun hn => ?_⟩
  · obtain ⟨h1, h2, pre, post, h3, h4, h5, h6⟩ := (scanList_spec vendor env.devices).1 d hd
    exact ⟨h1, h2, ⟨pre, post, h3, h4, h5, h6⟩, by simp [selectDevice, hd]⟩
  · obtain ⟨h1, h2, h3⟩ := (scanList_spec vendor env.devices).2 hn
    exact ⟨h1, h2, h3, by simp [selectDevice, hn]⟩

theorem C6_scan_mode_witness :
    (scanList [(4660, [22136, 39612])]
        [⟨4660, 0, false⟩, ⟨4660, 22136, true⟩]).found = some ⟨4660, 22136, true⟩
    ∧ (selectDevice none none
        ⟨[⟨4660, 0, false⟩, ⟨4660, 22136, true⟩], fun _ _ => false⟩
        [(4660, [22136, 39612])]).2 = .ok (4660, 22136) :=
  ⟨by decide,
   ((C6_scan_mode ⟨[⟨4660, 0, false⟩, ⟨4660, 22136, true⟩], fun _ _ => false⟩
      [(4660, [22136, 39612])]).1 ⟨4660, 22136, true⟩ (by decide)).2.2.2⟩

/-- C7: in explicit mode (both identifiers supplied) the selector attempts to
open exactly the device with that (vendorId, productId) pair; a failed open
is the fatal device-not-found error, and the vendor map plays no part in the
outcome. -/
theorem C7_explicit_mode (v p : Nat) (env : HidEnv) (vendor : VendorMap) :
    selectDevice (some v) (some p) env vendor
      = ([(v, p)],
          if env.openExplicit v p then .ok (v, p) else .error .deviceNotFound)
    ∧ ∀ vendor' : VendorMap,
        selectDevice (some v) (some p) env vendor
          = selectDevice (some v) (some p) env vendor' :=
  ⟨rfl, fun _ => rfl⟩

/-- C8: parse_hex_16 accepts 0x-prefixed hexadecimal and plain decimal forms
of 16-bit values and rejects out-of-range input: the hex form 0x2E8A and the
decimal form 11914 denote the same value, and 0x1FFFF is rejected. -/
theorem C8_parse_hex_16 :
    parse_hex_16 "0x2E8A" = some 11914
    ∧ parse_hex_16 "11914" = some 11914
    ∧ parse_hex_16 "0x1FFFF" = none :=
  ⟨by decide, by decide, by decide⟩

/-- C9: with exactly one of the two identifiers supplied on the command line,
the selector runs in scan mode and the supplied identifier is ignored
entirely: selection gives the very same answer as with no identifier at
all. -/
theorem C9_partial_ids_scan (v p : Nat) (env : HidEnv) (vendor : VendorMap) :
    selectDevice (some v) none env vendor = selectDevice none none env vendor
    ∧ selectDevice none (some p) env vendor = selectDevice none none env vendor :=
  ⟨rfl, rfl⟩

/-- C10 (counterexample): a list whose final element is a tool-only flag does
not always make the filter panic: an earlier occurrence of the same flag
absorbs the removal, the trailing flag survives, and the filter returns
normally. -/
theorem C10_trailing_flag_counterexample :
    ["--pid", "x", "--pid"].getLast? = some "--pid"
    ∧ filterArgs ["--pid", "x", "--pid"] = some ["--pid"] :=
  ⟨by decide, by decide⟩

/-- C10 (amended): the filter loop is total only when each found flag has a
following token: whenever the final element is a tool-only flag and no other
occurrence of either flag precedes it, the second remove call gets an
out-of-bounds index and the filter panics instead of returning a list. -/
theorem C10_trailing_flag_panics (xs : List String) (f : String)
    (hf : f = "--pid" ∨ f = "--vid")
    (hp : "--pid" ∉ xs) (hv : "--vid" ∉ xs) :
    filterArgs (xs ++ [f]) = none := by
  cases hf with
  | inl h =>
    subst h
    have h1 : stripFlag "--pid" (xs ++ ["--pid"]) = none := stripFlag_trailing _ xs hp
    simp [filterArgs, h1]
  | inr h =>
    subst h
    have h1 : stripFlag "--pid" (xs ++ ["--vid"]) = some (xs ++ ["--vid"]) := by
      apply stripFlag_absent
      intro hm
      rcases List.mem_append.mp hm with hm | hm
      · exact hp hm
      · exact absurd hm (by decide)
    have h2 : stripFlag "--vid" (xs ++ ["--vid"]) = none := stripFlag_trailing _ xs hv
    simp [filterArgs, h1, h2]

theorem C10_trailing_flag_panics_witness :
    filterArgs (["--release"] ++ ["--pid"]) = none :=
  C10_trailing_flag_panics ["--release"] "--pid" (Or.inl rfl) (by decide) (by decide)

end CargoHf2
